import Mathlib

/-!
Verification development for the docker-apps repository's VM lifecycle
supervisor.  The definitions below are shallow embeddings of:

* the Zustand QEMU store (`src/unnamed/part_004`, `createQemuStore`):
  lifecycle phase, UI log list, stats, configuration setters, and the
  `startVM` / `stopVM` / status-polling actions;
* the Android foreground service
  (`src/android/.../app/qemu/QemuService.java`): `startQemu`, `stopQemu`,
  the 10,000-character output log buffer and `getLogs`;
* the JNI wrapper (`src/unnamed/part_001`, `qemu_jni.c`): `nativeStop`
  with its 50-poll graceful-shutdown loop, and `nativeGetStatus`;
* `QemuManager` (`src/unnamed/part_000`): `executeCommand` with its
  SSH-then-serial fallback, and `executeViaSerial` with its quote
  escaping and `"return"`-field extraction.

External collaborators (the spawned OS process, `waitpid` outcomes, the
QMP wire peer, storage) are passed in as explicit parameters, so every
code path of the embedded functions is the corresponding source path.
Time stamps attached to UI log entries are irrelevant to every claim and
log entries are modelled by their message string.
-/

/-- Lifecycle phases, from `VM_STATUS` in `src/src/utils` (constants). -/
inductive VmPhase where
  | stopped
  | starting
  | running
  | stopping
  | error
  | initializing
deriving DecidableEq, Repr

/-- VM statistics record kept by the store (`vmStats`). The source holds
JS numbers; the claims never depend on their arithmetic, only on which
field is written, so they are modelled as naturals. -/
structure VmStats where
  uptime : Nat
  cpuUsage : Nat
  memoryUsage : Nat
deriving DecidableEq, Repr

/-- State of the Zustand QEMU store (`createQemuStore` in
`src/unnamed/part_004`).  `pollingActive` models whether
`statusInterval` is non-null; `qemuPaths` models whether the paths
object has been set. -/
structure QemuStore where
  vmStatus : VmPhase
  vmLogs : List String
  vmStats : VmStats
  isInitialized : Bool
  qemuPaths : Bool
  error : Option String
  ramMB : Nat
  cpuCores : Nat
  pollingActive : Bool
deriving DecidableEq, Repr

/-- Bounds from `VM_CONFIG` in `src/src/utils` (constants). -/
def VM_CONFIG_MIN_RAM_MB : Nat := 512

def VM_CONFIG_MAX_RAM_MB : Nat := 8192

def VM_CONFIG_MIN_CPU_CORES : Nat := 1

def VM_CONFIG_MAX_CPU_CORES : Nat := 8

/-- Last `n` elements of a list; `l.slice(-n)` in JS keeps the last `n`
elements (all of them when the list is shorter). -/
def takeLast (n : Nat) (l : List α) : List α := l.drop (l.length - n)

/-- The store's `addLog`: appends an entry and keeps the last 200
(`[...state.vmLogs, entry].slice(-200)`). -/
def addLog (s : QemuStore) (message : String) : QemuStore :=
  { s with vmLogs := takeLast 200 (s.vmLogs ++ [message]) }

/-- The store's `clearLogs`: resets `vmLogs` to the empty list. -/
def clearLogs (s : QemuStore) : QemuStore := { s with vmLogs := [] }

/-- The store's `setRamMB`: updates `ramMB` only when the value is
inside `[MIN_RAM_MB, MAX_RAM_MB]`; out-of-range values are ignored
without any error.  (The write to `StorageService` is external.) -/
def setRamMB (s : QemuStore) (ram : Nat) : QemuStore :=
  if VM_CONFIG_MIN_RAM_MB ≤ ram ∧ ram ≤ VM_CONFIG_MAX_RAM_MB then
    { s with ramMB := ram }
  else s

/-- The store's `setCpuCores`, analogous to `setRamMB`. -/
def setCpuCores (s : QemuStore) (cores : Nat) : QemuStore :=
  if VM_CONFIG_MIN_CPU_CORES ≤ cores ∧ cores ≤ VM_CONFIG_MAX_CPU_CORES then
    { s with cpuCores := cores }
  else s

/-- JS truthiness fallback `custom || fallback` for the optional
`customRamMB` / `customCpuCores` arguments of `startVM` (`none` models
an omitted argument, and `0` is falsy in JS). -/
def jsOr (custom : Option Nat) (fallback : Nat) : Nat :=
  match custom with
  | some v => if v = 0 then fallback else v
  | none => fallback

/-- The store's `initialize` action.  The outcome of the external
`QemuService.initialize()` call is passed in as `initOk` (with
`initErrMsg` as the failure message).  On success it records the paths,
sets the phase back to `stopped` and logs; on failure it moves to
`error` and rethrows (modelled by the `Except` result). -/
def initializeStore (s : QemuStore) (initOk : Bool) (initErrMsg : String) :
    QemuStore × Except String Unit :=
  let s1 : QemuStore := { s with vmStatus := .initializing, error := none }
  if initOk then
    let s2 := addLog { s1 with isInitialized := true, qemuPaths := true,
                               vmStatus := .stopped, error := none }
      ("QEMU environment initialized successfully")
    (s2, Except.ok ())
  else
    let s2 := addLog { s1 with vmStatus := .error, error := some initErrMsg }
      ("Initialization failed: " ++ initErrMsg)
    (s2, Except.error initErrMsg)

/-- The store's `startVM` action (`src/unnamed/part_004`, lines 69-102).
It initializes first when needed, resolves the RAM/CPU arguments with JS
truthiness against the stored configuration, unconditionally sets the
phase to `starting` and asks `QemuService.startVM(ram, cpu)` to spawn.
The external spawn outcome is `spawnRes`.  The returned list collects
the `(ram, cpu)` spawn requests issued to the service layer, and the
`Except` is the value returned/thrown to the caller.  On spawn success
the phase becomes `running` and status polling starts; on failure the
phase becomes `error` and the error is rethrown.  No configuration
bounds are checked anywhere on this path. -/
def startVM (s : QemuStore) (customRamMB customCpuCores : Option Nat)
    (initOk : Bool) (initErrMsg : String) (spawnRes : Except String Unit) :
    QemuStore × List (Nat × Nat) × Except String Unit :=
  let ram0 := s.ramMB
  let cpu0 := s.cpuCores
  let init :=
    if s.isInitialized then (s, Except.ok ())
    else initializeStore s initOk initErrMsg
  match init with
  | (s0, Except.error e) => (s0, [], Except.error e)
  | (s0, Except.ok _) =>
    let ram := jsOr customRamMB ram0
    let cpu := jsOr customCpuCores cpu0
    let s1 := addLog { s0 with vmStatus := .starting, error := none }
      ("Starting VM with " ++ toString ram ++ "MB RAM and " ++
        toString cpu ++ " CPU cores...")
    match spawnRes with
    | Except.ok _ =>
      let s2 := addLog { s1 with vmStatus := .running }
        ("VM started successfully")
      ({ s2 with pollingActive := true }, [(ram, cpu)], Except.ok ())
    | Except.error msg =>
      let s2 := addLog { s1 with vmStatus := .error, error := some msg }
        ("VM start failed: " ++ msg)
      (s2, [(ram, cpu)], Except.error msg)

/-- The store's `stopVM` action (`src/unnamed/part_004`, lines 104-124).
It unconditionally sets the phase to `stopping`, logs, and asks the
service to stop (outcome `stopRes`).  On success the phase becomes
`stopped` and polling stops; on failure only `error` is set (the phase
is left at `stopping`) and the error is rethrown. -/
def stopVMStore (s : QemuStore) (stopRes : Except String Unit) :
    QemuStore × Except String Unit :=
  let s1 := addLog { s with vmStatus := .stopping, error := none }
    ("Stopping VM...")
  match stopRes with
  | Except.ok _ =>
    let s2 := addLog { s1 with vmStatus := .stopped }
      ("VM stopped successfully")
    ({ s2 with pollingActive := false }, Except.ok ())
  | Except.error msg =>
    (addLog { s1 with error := some msg } ("VM stop failed: " ++ msg),
      Except.error msg)

/-- One tick of the store's 5-second status-polling interval
(`startStatusPolling`, `src/unnamed/part_004`, lines 161-178, together
with `getStatus`, lines 144-159).  When the phase is `running` it calls
the external `QemuService.getStatus()`: on success (`some stats`) it
overwrites `vmStats`; on failure (`none`) `getStatus` logs to the
console and returns null.  In every case `vmStatus` and `vmLogs` are
untouched and no event is published. -/
def pollTick (s : QemuStore) (statusRes : Option VmStats) : QemuStore :=
  if s.vmStatus = .running then
    match statusRes with
    | some st => { s with vmStats := st }
    | none => s
  else s

/-- Initial store state (`createQemuStore` field initializers:
`vmStatus: VM_STATUS.STOPPED`, empty logs, zero stats, defaults
`DEFAULT_RAM_MB = 2048`, `DEFAULT_CPU_CORES = 2`). -/
def initialStore : QemuStore :=
  { vmStatus := .stopped
    vmLogs := []
    vmStats := ⟨0, 0, 0⟩
    isInitialized := false
    qemuPaths := false
    error := none
    ramMB := 2048
    cpuCores := 2
    pollingActive := false }

/-- A store state after a successful `initialize()`. -/
def readyStore : QemuStore :=
  { initialStore with isInitialized := true, qemuPaths := true }

/-- State of the Android foreground service (`QemuService.java`):
`isRunning`, whether `qemuProcess` is non-null, `startTime`, and the
output log buffer (`StringBuilder logBuffer`, modelled as a character
list). -/
structure ServiceState where
  isRunning : Bool
  hasProcess : Bool
  startTime : Nat
  logBuffer : List Char
deriving DecidableEq, Repr

/-- The service's `startQemu(ramMB, cpuCores)` (`QemuService.java`,
lines 92-130).  When `isRunning` is already true it logs a warning and
returns — the request is dropped with no error surfaced to anyone (the
method is `void`).  Otherwise it builds the command and spawns
(`spawnOk` is the external `ProcessBuilder.start()` outcome, `now` the
clock): on success `isRunning`/`startTime` are set; on exception
`isRunning` is cleared and the service stops itself.  The returned
Boolean records whether a process spawn happened. -/
def startQemu (st : ServiceState) (ramMB cpuCores : Nat) (spawnOk : Bool)
    (now : Nat) : ServiceState × Bool :=
  if st.isRunning then (st, false)
  else if spawnOk then
    ({ st with isRunning := true, hasProcess := true, startTime := now }, true)
  else
    ({ st with isRunning := false }, false)

/-- The service's `stopQemu()` (`QemuService.java`, lines 135-175).
When not running it returns immediately.  Otherwise it calls
`qemuProcess.destroy()` and then blocks on `qemuProcess.waitFor()`,
which has NO timeout: `exitAfter` is the number of steps after which the
child actually exits (`none` when it never does), and `interrupted`
models an `InterruptedException` during the wait, the only path that
calls `destroyForcibly()`.  The result is `none` when the call never
returns (un-interrupted wait on a child that never exits); otherwise
`some (finalState, forcedKill, stepsWaited)`. -/
def stopQemu (st : ServiceState) (exitAfter : Option Nat)
    (interrupted : Bool) : Option (ServiceState × Bool × Nat) :=
  if !st.isRunning then some (st, false, 0)
  else
    let stFinal : ServiceState :=
      { st with isRunning := false, hasProcess := false, startTime := 0 }
    if st.hasProcess then
      if interrupted then some (stFinal, true, 0)
      else
        match exitAfter with
        | some k => some (stFinal, false, k)
        | none => none
    else some (stFinal, false, 0)

/-- Character cap of the service's output log buffer
(`QemuService.startOutputReader`: keep last 10000 chars). -/
def LOG_BUFFER_CAP : Nat := 10000

/-- One captured output line appended to the service log buffer
(`startOutputReader`, `QemuService.java` lines 249-273):
`logBuffer.append(line).append("\n")`, then when the length exceeds
10000 the oldest characters are deleted from the front
(`delete(0, length - 10000)`). -/
def appendLine (buf line : List Char) : List Char :=
  let b := buf ++ line ++ ['\n']
  if LOG_BUFFER_CAP < b.length then b.drop (b.length - LOG_BUFFER_CAP) else b

/-- Standard split of a character list at every newline; the result is
never empty and keeps empty segments ("a\n\n" gives ["a", "", ""]). -/
def splitNlAll : List Char → List (List Char)
  | [] => [[]]
  | c :: cs =>
    match splitNlAll cs with
    | [] => [[c]]
    | h :: t => if c = '\n' then [] :: h :: t else (c :: h) :: t

/-- Removal of trailing empty segments, as Java `String.split` does. -/
def dropTrailingEmpty (ls : List (List Char)) : List (List Char) :=
  (ls.reverse.dropWhile (fun l => l.isEmpty)).reverse

/-- Java `s.split("\n")`: splits at newlines and removes trailing empty
strings, except that splitting the empty string yields `[""]`. -/
def javaSplitNl (s : List Char) : List (List Char) :=
  if s.isEmpty then [[]] else dropTrailingEmpty (splitNlAll s)

/-- Concatenation of lines with a newline after each one, as the
`StringBuilder` loop in `getLogs` produces. -/
def joinNl : List (List Char) → List Char
  | [] => []
  | l :: ls => l ++ '\n' :: joinNl ls

/-- The service's `getLogs(lines)` (`QemuService.java`, lines 278-288):
split the buffer with Java `split("\n")`, then append the entries from
`start = max(0, allLines.length - lines)` on, each followed by a
newline.  `lines` is a Java `int`, so it is taken as an integer. -/
def getLogs (buf : List Char) (lines : Int) : List Char :=
  let allLines := javaSplitNl buf
  let start := (max 0 ((allLines.length : Int) - lines)).toNat
  joinNl (allLines.drop start)

/-- Native QEMU process state (`QemuState` in `qemu_jni.c`,
`src/unnamed/part_001`).  The claims never read `data_dir`, so it is
omitted; `running` is the C `int` flag as a Boolean. -/
structure QemuStateC where
  pid : Int
  running : Bool
  ramMB : Int
  cpuCores : Int
  startTime : Int
deriving DecidableEq, Repr

/-- Outcome of one `waitpid(pid, &status, WNOHANG)` call: the child has
exited (`waitpid` returned the pid), the call failed (returned a
negative value), or the child is still alive (returned 0). -/
inductive WaitpidRes where
  | exited
  | failed
  | alive
deriving DecidableEq, Repr

/-- `nativeGetStatus` (`qemu_jni.c`, lines 213-247): returns 0 when not
running or the pid is invalid; otherwise polls `waitpid` with `WNOHANG`
and on exit (or error) reconciles the native state (`running = 0`,
`pid = -1`) and returns 0; returns 1 while the child is alive. -/
def nativeGetStatus (st : QemuStateC) (w : WaitpidRes) : QemuStateC × Int :=
  if !st.running ∨ st.pid ≤ 0 then (st, 0)
  else
    match w with
    | .exited => ({ st with running := false, pid := -1 }, 0)
    | .failed => ({ st with running := false, pid := -1 }, 0)
    | .alive => (st, 1)

/-- The graceful-shutdown wait loop of `nativeStop` (`qemu_jni.c`,
lines 178-191): `while (wait_count < 50)`, each iteration polling
`waitpid` (`childGone i` tells whether the poll at iteration `i`
reports the child gone — exited or error —, both of which `break`) and
otherwise sleeping 100ms and incrementing.  Written with the remaining
iteration budget as `fuel` (50 at the call site); the result is the
final `wait_count`. -/
def stopWaitAux (childGone : Nat → Bool) : Nat → Nat → Nat
  | 0, w => w
  | fuel + 1, w => if childGone w then w else stopWaitAux childGone fuel (w + 1)

/-- `nativeStop` (`qemu_jni.c`, lines 154-207): no-op returning 0 when
not running or pid invalid; otherwise sends SIGTERM, runs the bounded
wait loop, and if the loop exhausted its 50 polls (`wait_count >= 50`)
sends SIGKILL and reaps the child with a blocking `waitpid` (which
terminates, the child having just been SIGKILLed).  The state is then
reset and 0 returned.  The Boolean reports whether SIGKILL was sent. -/
def nativeStop (st : QemuStateC) (childGone : Nat → Bool) :
    QemuStateC × Int × Bool :=
  if !st.running ∨ st.pid ≤ 0 then (st, 0, false)
  else
    let wc := stopWaitAux childGone 50 0
    ({ st with running := false, pid := -1, startTime := 0 }, 0, 50 ≤ wc)

/-- `QemuManager.executeCommand` (`src/unnamed/part_000`, lines
109-123): try SSH; on any exception try the serial/QMP transport; when
that also fails, swallow the exception and return the plain string
`"Error: " + e2.getMessage()`.  The two transport outcomes are passed
in; the function is total and never propagates a failure. -/
def executeCommand (sshRes serialRes : Except String String) : String :=
  match sshRes with
  | Except.ok out => out
  | Except.error _ =>
    match serialRes with
    | Except.ok out => out
    | Except.error m2 => "Error: " ++ m2

/-- Quote escaping applied to the outgoing command by `executeViaSerial`
(`src/unnamed/part_000`, line 175): `command.replace("\"", "\\\"")`. -/
def escapeQuotes : List Char → List Char
  | [] => []
  | c :: cs => (if c = '"' then ['\\', '"'] else [c]) ++ escapeQuotes cs

/-- The QMP command line transmitted by `executeViaSerial`:
the fixed `human-monitor-command` JSON skeleton around the escaped
command. -/
def mkQmpCommand (cmd : List Char) : List Char :=
  String.toList
      ("\x7b\"execute\":\"human-monitor-command\",\"arguments\":\x7b\"command-line\":\"")
    ++ escapeQuotes cmd
    ++ String.toList ("\"\x7d\x7d")

/-- Modelled from the spec: the control-socket wire format of the reply
(spec section 6, "Control-socket wire format") — the guest side is an
external collaborator, not code under `src/`.  The reply is a JSON
object with a `"return"` field whose string value is the command's
textual output, JSON-escaped (backslash, quote, newline, carriage
return). -/
def escapeJson : List Char → List Char
  | [] => []
  | c :: cs =>
    (if c = '\\' then ['\\', '\\']
     else if c = '"' then ['\\', '"']
     else if c = '\n' then ['\\', 'n']
     else if c = '\r' then ['\\', 'r']
     else [c]) ++ escapeJson cs

/-- Modelled from the spec: the full reply line
`{"return":"<escaped output>"}` carried on the control socket for a
guest textual output (spec section 6). -/
def mkResponse (output : List Char) : List Char :=
  String.toList ("\x7b\"return\":\"") ++ escapeJson output
    ++ String.toList ("\"\x7d")

/-- Java `String.indexOf(pat)` on character lists: index of the first
occurrence of `pat`, `none` for Java's -1. -/
def indexOfSub (pat : List Char) : List Char → Option Nat
  | [] => if pat.isEmpty then some 0 else none
  | c :: tl =>
    if pat.isPrefixOf (c :: tl) then some 0
    else (indexOfSub pat tl).map (fun i => i + 1)

/-- Java `String.contains(pat)`. -/
def containsSub (s pat : List Char) : Bool := (indexOfSub pat s).isSome

/-- Java `String.indexOf(ch, fromIndex)`: index of the first occurrence
of the character at or after `start`. -/
def indexOfCharFrom (s : List Char) (c : Char) (start : Nat) : Option Nat :=
  match indexOfSub [c] (s.drop start) with
  | some i => some (start + i)
  | none => none

/-- Java `replace("\\n", "\n")`: every two-character backslash-n
sequence becomes a newline, scanning left to right without overlap. -/
def unescapeN : List Char → List Char
  | [] => []
  | [c] => [c]
  | a :: b :: cs =>
    if a = '\\' ∧ b = 'n' then '\n' :: unescapeN cs
    else a :: unescapeN (b :: cs)

/-- Java `replace("\\r", "\r")`, applied after `unescapeN` as in the
source. -/
def unescapeR : List Char → List Char
  | [] => []
  | [c] => [c]
  | a :: b :: cs =>
    if a = '\\' ∧ b = 'r' then '\r' :: unescapeR cs
    else a :: unescapeR (b :: cs)

/-- Response parsing of `executeViaSerial` (`src/unnamed/part_000`,
lines 182-196) for a non-null response line: when the line contains
`"return"`, locate `return":"` (Java `indexOf`, -1 when absent), add 9,
and take everything up to the next quote character; when the guards
`start > 8 && end > start` hold, return that slice with `\n` and `\r`
un-escaped, otherwise fall back to the raw response line. -/
def extractReturn (response : List Char) : List Char :=
  if containsSub response (String.toList "return") then
    let startI : Int :=
      (match indexOfSub (String.toList "return\":\"") response with
       | some i => (i : Int)
       | none => -1) + 9
    let s := startI.toNat
    let endI : Int :=
      match indexOfCharFrom response '"' s with
      | some i => (i : Int)
      | none => -1
    if 8 < startI ∧ startI < endI then
      unescapeR (unescapeN ((response.drop s).take (endI.toNat - s)))
    else response
  else response

/-- Well-formedness of a piece of a JSON string body: scanning left to
right, any backslash consumes the next character, and a bare quote
character must not occur (it would terminate the wire string early). -/
def quotesEscaped : List Char → Bool
  | [] => true
  | [c] => c != '"'
  | a :: b :: cs =>
    if a = '\\' then quotesEscaped cs
    else if a = '"' then false
    else quotesEscaped (b :: cs)

/-- Variant of `escapeJson` that only escapes carriage returns; the
intermediate shape reached after `unescapeN` has run over a fully
escaped payload. -/
def escapeR : List Char → List Char
  | [] => []
  | c :: cs => (if c = '\r' then ['\\', 'r'] else [c]) ++ escapeR cs

theorem addLog_length_le (s : QemuStore) (m : String) :
    (addLog s m).vmLogs.length ≤ 200 := by
  simp only [addLog, takeLast, List.length_drop, List.length_append,
    List.length_singleton]
  omega

theorem addLog_suffix (s : QemuStore) (m : String) :
    (addLog s m).vmLogs <:+ s.vmLogs ++ [m] := by
  simp only [addLog, takeLast]
  exact List.drop_suffix _ _

theorem addLog_getLast (s : QemuStore) (m : String) :
    (addLog s m).vmLogs.getLast? = some m := by
  simp only [addLog, takeLast]
  rw [List.drop_append_of_le_length (by simp)]
  simp

/-- C10: after every `addLog` call the store's `vmLogs` holds at most
200 entries, they are a suffix of the previous entries followed by the
new one (append order, oldest dropped first), the newest entry is last,
and `clearLogs` resets the list to empty. -/
theorem C10_ui_log_bounded (s : QemuStore) (m : String) :
    (addLog s m).vmLogs.length ≤ 200 ∧
    (addLog s m).vmLogs <:+ s.vmLogs ++ [m] ∧
    (addLog s m).vmLogs.getLast? = some m ∧
    (clearLogs s).vmLogs = [] :=
  ⟨addLog_length_le s m, addLog_suffix s m, addLog_getLast s m, rfl⟩

/-- C9: `executeCommand` is total over its error cases — it returns the
SSH output when SSH succeeds, otherwise the serial output when that
succeeds, and when both transports fail it returns the plain string
`"Error: "` followed by the second failure's message; no case
propagates an exception (the embedding is a total function into
`String`). -/
theorem C9_executeCommand_total (out m m2 : String)
    (r : Except String String) :
    executeCommand (Except.ok out) r = out ∧
    executeCommand (Except.error m) (Except.ok out) = out ∧
    executeCommand (Except.error m) (Except.error m2) = "Error: " ++ m2 :=
  ⟨rfl, rfl, rfl⟩

/-- C5: appending a captured line keeps the log buffer at or under the
10,000-character cap, the new buffer is a suffix of the old buffer
followed by the appended line (only the oldest characters are dropped,
FIFO), the retained length is exactly the most recent
`min (total, cap)` characters, and whenever the appended chunk itself
fits inside the cap it is retained in full as a suffix. -/
theorem C5_logbuffer_eviction (buf line : List Char) :
    (appendLine buf line).length =
      min (buf ++ line ++ ['\n']).length LOG_BUFFER_CAP ∧
    appendLine buf line <:+ buf ++ line ++ ['\n'] ∧
    ((line ++ ['\n']).length ≤ LOG_BUFFER_CAP →
      line ++ ['\n'] <:+ appendLine buf line) := by
  unfold appendLine
  by_cases h : LOG_BUFFER_CAP < (buf ++ line ++ ['\n']).length
  · simp only [h, if_true]
    refine ⟨by simp [List.length_drop]; omega, List.drop_suffix _ _, ?_⟩
    intro hfit
    rw [List.append_assoc] at h ⊢
    rw [List.drop_append_of_le_length (by simp at h hfit ⊢; omega)]
    exact (List.suffix_append _ _)
  · simp only [h, if_false]
    refine ⟨by omega, List.suffix_refl _, fun _ => ?_⟩
    rw [List.append_assoc]
    exact List.suffix_append _ _

/-- Witness for C5 at a concrete input. -/
theorem C5_logbuffer_eviction_witness :
    (['b'] ++ ['\n']).length ≤ LOG_BUFFER_CAP ∧
    ['b'] ++ ['\n'] <:+ appendLine ['a'] ['b'] :=
  ⟨by decide, (C5_logbuffer_eviction ['a'] ['b']).2.2 (by decide)⟩

/-- C1 counterexample: `start()` with RAM=100 (far below the 512 MB
minimum) on an initialized, stopped store is not rejected: exactly one
spawn request carrying RAM=100 is issued to the service layer, the call
returns plain success (no `InvalidConfiguration` error exists anywhere
in the code), and the phase changes from `stopped` to `running`. -/
theorem C1_no_invalid_configuration_cex :
    (startVM readyStore (some 100) none true "" (Except.ok ())).2.1 =
      [(100, 2)] ∧
    (startVM readyStore (some 100) none true "" (Except.ok ())).2.2 =
      Except.ok () ∧
    readyStore.vmStatus = VmPhase.stopped ∧
    (startVM readyStore (some 100) none true "" (Except.ok ())).1.vmStatus =
      VmPhase.running :=
  ⟨rfl, rfl, rfl, rfl⟩

/-- C1 (amended): the start path performs no RAM/CPU bounds validation
at all — for any initialized store and any requested values (100 MB
included) it issues exactly one spawn request with exactly those
values, moves the phase to `running` on spawn success and to `error` on
spawn failure, and returns the spawn outcome unchanged.  The
[512, 8192] MB and [1, 8] core bounds are enforced only by the
configuration setters `setRamMB` / `setCpuCores`, which silently ignore
out-of-range values. -/
theorem C1_start_skips_validation (s : QemuStore) (ram cpu : Nat)
    (r : Except String Unit) (hinit : s.isInitialized = true)
    (hram : ram ≠ 0) (hcpu : cpu ≠ 0) :
    (startVM s (some ram) (some cpu) true "" r).2.1 = [(ram, cpu)] ∧
    (startVM s (some ram) (some cpu) true "" r).1.vmStatus =
      (match r with
       | Except.ok _ => VmPhase.running
       | Except.error _ => VmPhase.error) ∧
    (startVM s (some ram) (some cpu) true "" r).2.2 = r ∧
    (∀ ram2, ram2 < VM_CONFIG_MIN_RAM_MB ∨ VM_CONFIG_MAX_RAM_MB < ram2 →
      setRamMB s ram2 = s) ∧
    (∀ cpu2, cpu2 < VM_CONFIG_MIN_CPU_CORES ∨
        VM_CONFIG_MAX_CPU_CORES < cpu2 →
      setCpuCores s cpu2 = s) := by
  refine ⟨?_, ?_, ?_, ?_, ?_⟩
  · cases r <;> simp [startVM, hinit, jsOr, hram, hcpu]
  · cases r <;> simp [startVM, hinit, jsOr, hram, hcpu, addLog]
  · cases r <;> simp [startVM, hinit, jsOr, hram, hcpu]
  · intro ram2 hout
    simp only [setRamMB, VM_CONFIG_MIN_RAM_MB, VM_CONFIG_MAX_RAM_MB] at hout ⊢
    rw [if_neg (by omega)]
  · intro cpu2 hout
    simp only [setCpuCores, VM_CONFIG_MIN_CPU_CORES,
      VM_CONFIG_MAX_CPU_CORES] at hout ⊢
    rw [if_neg (by omega)]

/-- Witness for the amended C1 at a concrete input. -/
theorem C1_start_skips_validation_witness :
    (readyStore.isInitialized = true ∧ (100 : Nat) ≠ 0 ∧ (2 : Nat) ≠ 0) ∧
    (startVM readyStore (some 100) (some 2) true "" (Except.ok ())).2.1 =
      [(100, 2)] :=
  ⟨⟨rfl, by decide, by decide⟩,
    (C1_start_skips_validation readyStore 100 2 (Except.ok ()) rfl
      (by decide) (by decide)).1⟩

/-- C2 counterexample: a `start()` issued while the phase is `starting`
is not rejected with a busy-class error at any layer.  The store issues
a (second) spawn request and returns plain success, and the service
layer's re-entrancy guard (`if (isRunning) return`) drops a concurrent
start silently — no error is surfaced and no busy signal exists. -/
theorem C2_busy_not_rejected_cex :
    (startVM { readyStore with vmStatus := VmPhase.starting } none none
        true "" (Except.ok ())).2.1 = [(2048, 2)] ∧
    (startVM { readyStore with vmStatus := VmPhase.starting } none none
        true "" (Except.ok ())).2.2 = Except.ok () ∧
    startQemu
        { isRunning := true, hasProcess := true, startTime := 5,
          logBuffer := [] } 2048 2 true 7 =
      ({ isRunning := true, hasProcess := true, startTime := 5,
          logBuffer := [] }, false) :=
  ⟨rfl, rfl, rfl⟩

/-- C2 (amended): no busy-class error exists on the start path.  The
store's `startVM` performs no phase check: called while the phase is
`starting` (or any other phase) on an initialized store it still issues
exactly one spawn request to the service layer and returns the spawn
outcome itself.  The Java service guard, for its part, silently drops a
start while a process is already running: state unchanged, nothing
spawned, and no error value (the method returns void). -/
theorem C2_busy_silently_dropped (s : QemuStore) (r : Except String Unit)
    (hinit : s.isInitialized = true)
    (hbusy : s.vmStatus = VmPhase.starting) :
    ((startVM s none none true "" r).2.1).length = 1 ∧
    (startVM s none none true "" r).2.2 = r ∧
    (∀ st ram cpu ok now, st.isRunning = true →
      startQemu st ram cpu ok now = (st, false)) := by
  refine ⟨?_, ?_, ?_⟩
  · cases r <;> simp [startVM, hinit]
  · cases r <;> simp [startVM, hinit]
  · intro st ram cpu ok now hrun
    simp [startQemu, hrun]

/-- Witness for the amended C2 at a concrete input. -/
theorem C2_busy_silently_dropped_witness :
    ({ readyStore with vmStatus := VmPhase.starting }.isInitialized = true ∧
      { readyStore with vmStatus := VmPhase.starting }.vmStatus =
        VmPhase.starting) ∧
    ((startVM { readyStore with vmStatus := VmPhase.starting } none none
        true "" (Except.ok ())).2.1).length = 1 :=
  ⟨⟨rfl, rfl⟩,
    (C2_busy_silently_dropped { readyStore with vmStatus := VmPhase.starting }
      (Except.ok ()) rfl rfl).1⟩

/-- C3 counterexample: the supervised process has been killed externally
while the phase is `running` — the Java `getStatus` then reports status
"stopped" with zero statistics, which reaches the store as fresh stats.
The next polling tick stores those stats and leaves the phase at
`running` (the handler never reads the status field and publishes
nothing), so the liveness check does not transition the phase away from
`running` and emits no transition event. -/
theorem C3_poll_does_not_reconcile_cex :
    (pollTick { readyStore with vmStatus := VmPhase.running }
        (some ⟨0, 0, 0⟩)).vmStatus = VmPhase.running ∧
    (pollTick { readyStore with vmStatus := VmPhase.running }
        (some ⟨0, 0, 0⟩)).vmLogs = [] :=
  ⟨rfl, rfl⟩

/-- C3 (amended): the JS polling path never reconciles the lifecycle
phase: a poll tick preserves `vmStatus` and `vmLogs` for every state
and every status outcome, publishing nothing.  Reconciliation exists
only inside the native layer: `nativeGetStatus` on a running state whose
child `waitpid` reports exited flips the native `running` flag off,
invalidates the pid and returns 0 — and does so exactly once, any
further status check leaving the reconciled state unchanged. -/
theorem C3_liveness_reconciliation (s : QemuStore) (r : Option VmStats)
    (st : QemuStateC) (w : WaitpidRes)
    (hrun : st.running = true) (hpid : 0 < st.pid) :
    (pollTick s r).vmStatus = s.vmStatus ∧
    (pollTick s r).vmLogs = s.vmLogs ∧
    (nativeGetStatus st WaitpidRes.exited).1.running = false ∧
    (nativeGetStatus st WaitpidRes.exited).1.pid = -1 ∧
    (nativeGetStatus st WaitpidRes.exited).2 = 0 ∧
    nativeGetStatus (nativeGetStatus st WaitpidRes.exited).1 w =
      ((nativeGetStatus st WaitpidRes.exited).1, 0) := by
  have hpid2 : ¬st.pid ≤ 0 := by omega
  refine ⟨?_, ?_, ?_, ?_, ?_, ?_⟩
  · unfold pollTick; split <;> [skip; rfl]
    cases r <;> rfl
  · unfold pollTick; split <;> [skip; rfl]
    cases r <;> rfl
  · simp [nativeGetStatus, hrun, hpid2]
  · simp [nativeGetStatus, hrun, hpid2]
  · simp [nativeGetStatus, hrun, hpid2]
  · simp [nativeGetStatus, hrun, hpid2]

/-- Witness for the amended C3 at a concrete input. -/
theorem C3_liveness_reconciliation_witness :
    ((⟨7, true, 2048, 2, 0⟩ : QemuStateC).running = true ∧
      (0 : Int) < (⟨7, true, 2048, 2, 0⟩ : QemuStateC).pid) ∧
    (nativeGetStatus (⟨7, true, 2048, 2, 0⟩ : QemuStateC)
        WaitpidRes.exited).1.running = false :=
  ⟨⟨rfl, by decide⟩,
    (C3_liveness_reconciliation readyStore none
      (⟨7, true, 2048, 2, 0⟩ : QemuStateC) WaitpidRes.alive rfl
      (by decide)).2.2.1⟩

theorem stopWaitAux_le (f : Nat → Bool) :
    ∀ fuel w, stopWaitAux f fuel w ≤ fuel + w := by
  intro fuel
  induction fuel with
  | zero => intro w; simp [stopWaitAux]
  | succ n ih =>
    intro w
    simp only [stopWaitAux]
    split
    · omega
    · have := ih (w + 1)
      omega

theorem stopWaitAux_never (f : Nat → Bool) :
    ∀ fuel w, (∀ i, w ≤ i → i < w + fuel → f i = false) →
      stopWaitAux f fuel w = w + fuel := by
  intro fuel
  induction fuel with
  | zero => intro w _; simp [stopWaitAux]
  | succ n ih =>
    intro w h
    have hw : f w = false := h w (le_refl w) (by omega)
    have := ih (w + 1) (fun i h1 h2 => h i (by omega) (by omega))
    simp only [stopWaitAux, hw, Bool.false_eq_true, if_false]
    omega

/-- C4 counterexample: the stop path actually exercised by
`QemuModule.stopVM` is the service's `stopQemu`, which blocks on
`Process.waitFor()` with no timeout.  For a running service whose child
never exits (and no interrupt), the call never returns; for a child
that exits only after 1000 wait steps it waits all 1000 steps — far
beyond a 50-poll bound — and never escalates to a forced kill.  This
refutes "waits at most 5 seconds … always escalates to a forced kill —
no stop path waits unboundedly". -/
theorem C4_stop_unbounded_cex :
    stopQemu
        { isRunning := true, hasProcess := true, startTime := 5,
          logBuffer := [] } none false = none ∧
    stopQemu
        { isRunning := true, hasProcess := true, startTime := 5,
          logBuffer := [] } (some 1000) false =
      some ({ isRunning := false, hasProcess := false, startTime := 0,
              logBuffer := [] }, false, 1000) ∧
    50 < 1000 :=
  ⟨rfl, rfl, by omega⟩

/-- C4 (amended): the bounded-wait contract holds only for the native
`nativeStop` path: its graceful wait loop performs at most 50 polls (at
100ms each, the 5-second bound), and when the child is still there
after all 50 polls it always escalates to SIGKILL; in every case the
call returns 0 and the native state is reset (`running = 0`,
`pid = -1`).  The Java service stop path, by contrast, waits
unboundedly (see the counterexample). -/
theorem C4_nativeStop_bounded (st : QemuStateC) (f : Nat → Bool)
    (hrun : st.running = true) (hpid : 0 < st.pid) :
    stopWaitAux f 50 0 ≤ 50 ∧
    (nativeStop st f).1.running = false ∧
    (nativeStop st f).1.pid = -1 ∧
    (nativeStop st f).2.1 = 0 ∧
    ((∀ i, i < 50 → f i = false) → (nativeStop st f).2.2 = true) := by
  have hpid2 : ¬st.pid ≤ 0 := by omega
  have hle := stopWaitAux_le f 50 0
  refine ⟨by omega, ?_, ?_, ?_, ?_⟩
  · simp [nativeStop, hrun, hpid2]
  · simp [nativeStop, hrun, hpid2]
  · simp [nativeStop, hrun, hpid2]
  · intro hnone
    have h50 : stopWaitAux f 50 0 = 50 := by
      have := stopWaitAux_never f 50 0 (fun i h1 h2 => hnone i (by omega))
      omega
    simp [nativeStop, hrun, hpid2, h50]

/-- Witness for the amended C4 at a concrete input. -/
theorem C4_nativeStop_bounded_witness :
    ((⟨7, true, 2048, 2, 3⟩ : QemuStateC).running = true ∧
      (0 : Int) < (⟨7, true, 2048, 2, 3⟩ : QemuStateC).pid) ∧
    (nativeStop (⟨7, true, 2048, 2, 3⟩ : QemuStateC)
        (fun _ => false)).2.1 = 0 :=
  ⟨⟨rfl, by decide⟩,
    (C4_nativeStop_bounded (⟨7, true, 2048, 2, 3⟩ : QemuStateC)
      (fun _ => false) rfl (by decide)).2.2.2.1⟩

/-- C8 counterexample: calling `stop()` at the store level while the
phase is already `stopped` is not a side-effect-free no-op.  On the
freshly initialized (stopped) store it does return success, but it
mutates the state: two log entries are appended (the phase also
transits through `stopping` on the way back to `stopped`), so the
resulting state differs from the input state. -/
theorem C8_stop_not_noop_cex :
    readyStore.vmStatus = VmPhase.stopped ∧
    (stopVMStore readyStore (Except.ok ())).2 = Except.ok () ∧
    (stopVMStore readyStore (Except.ok ())).1.vmLogs =
      ["Stopping VM...", "VM stopped successfully"] ∧
    readyStore.vmLogs = [] ∧
    (stopVMStore readyStore (Except.ok ())).1 ≠ readyStore := by
  refine ⟨rfl, rfl, by decide, rfl, by decide⟩

/-- C8 (amended): stop is an idempotent success-returning no-op at the
two lower layers — the service's `stopQemu` when not running returns
immediately with the state unchanged, no forced kill and no wait, and
the native `nativeStop` when not running returns 0 without sending any
signal or touching the state.  The store-level `stopVM`, however, is
not a no-op at phase `stopped`: it still returns success and ends at
phase `stopped`, but it transits through `stopping` and appends fresh
log entries (its last log entry is always the new "VM stopped
successfully"). -/
theorem C8_stop_idempotent_lower_layers (svc : ServiceState)
    (w : Option Nat) (i : Bool) (stc : QemuStateC) (f : Nat → Bool)
    (s : QemuStore) (hsvc : svc.isRunning = false)
    (hstc : stc.running = false) (hs : s.vmStatus = VmPhase.stopped) :
    stopQemu svc w i = some (svc, false, 0) ∧
    nativeStop stc f = (stc, 0, false) ∧
    (stopVMStore s (Except.ok ())).2 = Except.ok () ∧
    (stopVMStore s (Except.ok ())).1.vmStatus = VmPhase.stopped ∧
    (stopVMStore s (Except.ok ())).1.vmLogs.getLast? =
      some ("VM stopped successfully") := by
  refine ⟨?_, ?_, rfl, rfl, ?_⟩
  · simp [stopQemu, hsvc]
  · simp [nativeStop, hstc]
  · simp only [stopVMStore]
    exact addLog_getLast _ _

/-- Witness for the amended C8 at a concrete input. -/
theorem C8_stop_idempotent_lower_layers_witness :
    ((⟨false, false, 0, []⟩ : ServiceState).isRunning = false ∧
      (⟨-1, false, 0, 0, 0⟩ : QemuStateC).running = false ∧
      readyStore.vmStatus = VmPhase.stopped) ∧
    stopQemu (⟨false, false, 0, []⟩ : ServiceState) none false =
      some ((⟨false, false, 0, []⟩ : ServiceState), false, 0) :=
  ⟨⟨rfl, rfl, rfl⟩,
    (C8_stop_idempotent_lower_layers (⟨false, false, 0, []⟩ : ServiceState)
      none false (⟨-1, false, 0, 0, 0⟩ : QemuStateC) (fun _ => false)
      readyStore rfl rfl rfl).1⟩

theorem splitNlAll_ne_nil : ∀ s : List Char, splitNlAll s ≠ [] := by
  intro s
  induction s with
  | nil => simp [splitNlAll]
  | cons c cs ih =>
    cases h : splitNlAll cs with
    | nil => simp [splitNlAll, h]
    | cons hd tl =>
      simp only [splitNlAll, h]
      split <;> simp

theorem splitNlAll_line (l t : List Char) (hl : '\n' ∉ l) :
    splitNlAll (l ++ '\n' :: t) = l :: splitNlAll t := by
  induction l with
  | nil =>
    simp only [List.nil_append, splitNlAll]
    cases h : splitNlAll t with
    | nil => exact absurd h (splitNlAll_ne_nil t)
    | cons hd tl => simp
  | cons c cs ih =>
    have hc : c ≠ '\n' := by
      intro e
      exact hl (e ▸ List.mem_cons_self c cs)
    have hcs : '\n' ∉ cs := fun m => hl (List.mem_cons_of_mem _ m)
    rw [List.cons_append]
    rw [splitNlAll]
    rw [ih hcs]
    simp [hc]

theorem splitNlAll_joinNl (ls : List (List Char))
    (h : ∀ l ∈ ls, '\n' ∉ l) : splitNlAll (joinNl ls) = ls ++ [[]] := by
  induction ls with
  | nil => simp [joinNl, splitNlAll]
  | cons l ls ih =>
    have h1 : '\n' ∉ l := h l (List.mem_cons_self l ls)
    have h2 : ∀ x ∈ ls, '\n' ∉ x := fun x m => h x (List.mem_cons_of_mem _ m)
    simp only [joinNl, splitNlAll_line l _ h1, ih h2, List.cons_append]

theorem dropTrailingEmpty_concat (ls : List (List Char)) (hne : ls ≠ [])
    (h : ∀ l ∈ ls, l ≠ []) : dropTrailingEmpty (ls ++ [[]]) = ls := by
  unfold dropTrailingEmpty
  rw [List.reverse_append]
  cases hrev : ls.reverse with
  | nil => exact absurd (by simpa using congrArg List.reverse hrev) hne
  | cons a rest =>
    have ha : a ∈ ls := by
      have : a ∈ ls.reverse := by rw [hrev]; exact List.mem_cons_self a rest
      simpa using this
    have ha2 : a.isEmpty = false := by
      cases a with
      | nil => exact absurd rfl (h [] ha)
      | cons x xs => rfl
    simp only [List.reverse_cons, List.reverse_nil, List.nil_append,
      List.singleton_append, hrev, List.dropWhile_cons]
    simp only [List.isEmpty_nil, if_true, List.dropWhile_cons, ha2,
      Bool.false_eq_true, if_false]
    have := congrArg List.reverse hrev
    simpa using this.symm

theorem joinNl_ne_nil (ls : List (List Char)) (hne : ls ≠ []) :
    joinNl ls ≠ [] := by
  cases ls with
  | nil => exact absurd rfl hne
  | cons l t => simp [joinNl]

theorem javaSplitNl_joinNl (ls : List (List Char)) (hne : ls ≠ [])
    (h : ∀ l ∈ ls, l ≠ [] ∧ '\n' ∉ l) :
    javaSplitNl (joinNl ls) = ls := by
  unfold javaSplitNl
  rw [if_neg (by simpa using joinNl_ne_nil ls hne)]
  rw [splitNlAll_joinNl ls (fun x m => (h x m).2)]
  exact dropTrailingEmpty_concat ls hne (fun x m => (h x m).1)

/-- C6 counterexample: capturing the line "a" and then an empty line
leaves the buffer "a\n\n", whose captured lines are ["a", ""].  The
claim requires `getLogs 2` to return exactly those last two lines
("a\n\n" re-joined); the code instead returns "a\n", silently dropping
the trailing empty line because Java `split("\n")` removes trailing
empty strings before the slice is taken. -/
theorem C6_getLogs_cex :
    appendLine (appendLine [] ['a']) [] = ['a', '\n', '\n'] ∧
    getLogs ['a', '\n', '\n'] 2 = ['a', '\n'] ∧
    joinNl [['a'], []] = ['a', '\n', '\n'] ∧
    getLogs ['a', '\n', '\n'] 2 ≠ joinNl [['a'], []] :=
  ⟨by decide, by decide, by decide, by decide⟩

/-- C6 (amended): for a buffer whose captured lines are all nonempty
(the buffer is the newline-terminated join of nonempty, newline-free
lines), `getLogs n` returns exactly the last `n` of them — all of them
when fewer exist — in their original order, each newline-terminated,
and the buffer itself is untouched (the embedding is a pure function).
When trailing captured lines are empty, Java `split("\n")` semantics
drop them (see the counterexample), and on the empty buffer
`getLogs n` returns a single bare newline for `n ≥ 1`. -/
theorem C6_getLogs_returns_last_lines (ls : List (List Char)) (n : Nat)
    (hne : ls ≠ []) (h : ∀ l ∈ ls, l ≠ [] ∧ '\n' ∉ l) :
    getLogs (joinNl ls) (n : Int) = joinNl (takeLast n ls) := by
  unfold getLogs
  rw [javaSplitNl_joinNl ls hne h]
  dsimp only
  have hmax : (max 0 ((ls.length : Int) - (n : Int))).toNat =
      ls.length - n := by omega
  rw [hmax]
  rfl

/-- Witness for the amended C6 at a concrete input. -/
theorem C6_getLogs_returns_last_lines_witness :
    (([['a'], ['b']] : List (List Char)) ≠ [] ∧
      ∀ l ∈ ([['a'], ['b']] : List (List Char)), l ≠ [] ∧ '\n' ∉ l) ∧
    getLogs (joinNl [['a'], ['b']]) ((1 : Nat) : Int) =
      joinNl (takeLast 1 [['a'], ['b']]) :=
  ⟨⟨by decide, by decide⟩,
    C6_getLogs_returns_last_lines [['a'], ['b']] 1 (by decide) (by decide)⟩


theorem escapeJson_nl (cs : List Char) :
    escapeJson ('\n' :: cs) = '\\' :: 'n' :: escapeJson cs := by
  simp [escapeJson]

theorem escapeJson_cr (cs : List Char) :
    escapeJson ('\r' :: cs) = '\\' :: 'r' :: escapeJson cs := by
  simp [escapeJson]

theorem escapeJson_other (c : Char) (cs : List Char) (h1 : c ≠ '\\')
    (h2 : c ≠ '"') (h3 : c ≠ '\n') (h4 : c ≠ '\r') :
    escapeJson (c :: cs) = c :: escapeJson cs := by
  simp [escapeJson, h1, h2, h3, h4]

theorem escapeR_cr (cs : List Char) :
    escapeR ('\r' :: cs) = '\\' :: 'r' :: escapeR cs := by
  simp [escapeR]

theorem escapeR_other (c : Char) (cs : List Char) (h : c ≠ '\r') :
    escapeR (c :: cs) = c :: escapeR cs := by
  simp [escapeR, h]

theorem unescapeN_bsn (cs : List Char) :
    unescapeN ('\\' :: 'n' :: cs) = '\n' :: unescapeN cs := by
  simp [unescapeN]

theorem unescapeN_cons_ne (a : Char) (t : List Char) (ha : a ≠ '\\') :
    unescapeN (a :: t) = a :: unescapeN t := by
  cases t with
  | nil => rfl
  | cons b cs => simp [unescapeN, ha]

theorem unescapeN_bsr (cs : List Char) :
    unescapeN ('\\' :: 'r' :: cs) = '\\' :: 'r' :: unescapeN cs := by
  have h1 : unescapeN ('\\' :: 'r' :: cs) = '\\' :: unescapeN ('r' :: cs) := by
    simp [unescapeN]
  rw [h1, unescapeN_cons_ne 'r' cs (by decide)]

theorem unescapeR_bsr (cs : List Char) :
    unescapeR ('\\' :: 'r' :: cs) = '\r' :: unescapeR cs := by
  simp [unescapeR]

theorem unescapeR_cons_ne (a : Char) (t : List Char) (ha : a ≠ '\\') :
    unescapeR (a :: t) = a :: unescapeR t := by
  cases t with
  | nil => rfl
  | cons b cs => simp [unescapeR, ha]

theorem unescapeN_escapeJson (out : List Char) (hb : '\\' ∉ out)
    (hq : '"' ∉ out) : unescapeN (escapeJson out) = escapeR out := by
  induction out with
  | nil => rfl
  | cons c cs ih =>
    have hc1 : c ≠ '\\' := fun e => hb (e ▸ List.mem_cons_self c cs)
    have hc2 : c ≠ '"' := fun e => hq (e ▸ List.mem_cons_self c cs)
    have hb2 : '\\' ∉ cs := fun m => hb (List.mem_cons_of_mem _ m)
    have hq2 : '"' ∉ cs := fun m => hq (List.mem_cons_of_mem _ m)
    by_cases hn : c = '\n'
    · subst hn
      rw [escapeJson_nl, unescapeN_bsn, ih hb2 hq2,
        escapeR_other '\n' cs (by decide)]
    · by_cases hr : c = '\r'
      · subst hr
        rw [escapeJson_cr, unescapeN_bsr, ih hb2 hq2, escapeR_cr]
      · rw [escapeJson_other c cs hc1 hc2 hn hr,
          unescapeN_cons_ne c _ hc1, ih hb2 hq2, escapeR_other c cs hr]

theorem unescapeR_escapeR (out : List Char) (hb : '\\' ∉ out) :
    unescapeR (escapeR out) = out := by
  induction out with
  | nil => rfl
  | cons c cs ih =>
    have hc1 : c ≠ '\\' := fun e => hb (e ▸ List.mem_cons_self c cs)
    have hb2 : '\\' ∉ cs := fun m => hb (List.mem_cons_of_mem _ m)
    by_cases hr : c = '\r'
    · subst hr
      rw [escapeR_cr, unescapeR_bsr, ih hb2]
    · rw [escapeR_other c cs hr, unescapeR_cons_ne c _ hc1, ih hb2]

theorem indexOfSub_singleton (c : Char) (l r : List Char) (h : c ∉ l) :
    indexOfSub [c] (l ++ c :: r) = some l.length := by
  induction l with
  | nil =>
    simp only [List.nil_append, indexOfSub]
    rw [if_pos]
    · rfl
    · show List.isPrefixOf [c] (c :: r) = true
      simp [List.isPrefixOf]
  | cons a l2 ih =>
    have ha : c ≠ a := fun e => h (e ▸ List.mem_cons_self a l2)
    have h2 : c ∉ l2 := fun m => h (List.mem_cons_of_mem _ m)
    simp only [List.cons_append, indexOfSub]
    rw [if_neg]
    · simp only [List.append_eq]
      rw [ih h2]
      rfl
    · show ¬List.isPrefixOf [c] (a :: (l2 ++ c :: r)) = true
      simp [List.isPrefixOf, ha]

theorem indexOfSub_prefixed (pat x : List Char) (hne : pat ≠ []) :
    indexOfSub pat (pat ++ x) = some 0 := by
  cases pat with
  | nil => exact absurd rfl hne
  | cons p ps =>
    simp only [List.cons_append, indexOfSub]
    rw [if_pos]
    show List.isPrefixOf (p :: ps) (p :: (ps ++ x)) = true
    rw [List.isPrefixOf_iff_prefix]
    exact ⟨x, by simp⟩

theorem indexOfSub_cons (pat : List Char) (c : Char) (tl : List Char) :
    indexOfSub pat (c :: tl) =
      if pat.isPrefixOf (c :: tl) then some 0
      else (indexOfSub pat tl).map (fun i => i + 1) := rfl

theorem mkResponse_eq (out : List Char) :
    mkResponse out =
      '{' :: '"' :: (String.toList "return\":\"" ++
        (escapeJson out ++ ['"', '}'])) := rfl

theorem indexOfSub_retKey (out : List Char) :
    indexOfSub (String.toList "return\":\"") (mkResponse out) = some 2 := by
  rw [mkResponse_eq]
  rw [indexOfSub_cons]
  rw [if_neg (by rw [show List.isPrefixOf (String.toList "return\":\"")
    ('{' :: '"' :: (String.toList "return\":\"" ++
      (escapeJson out ++ ['"', '}']))) = false from rfl]; simp)]
  rw [indexOfSub_cons]
  rw [if_neg (by rw [show List.isPrefixOf (String.toList "return\":\"")
    ('"' :: (String.toList "return\":\"" ++
      (escapeJson out ++ ['"', '}']))) = false from rfl]; simp)]
  rw [indexOfSub_prefixed _ _ (by decide)]
  rfl

theorem containsSub_mkResponse (out : List Char) :
    containsSub (mkResponse out) (String.toList "return") = true := by
  unfold containsSub
  rw [mkResponse_eq]
  rw [indexOfSub_cons]
  rw [if_neg (by rw [show List.isPrefixOf (String.toList "return")
    ('{' :: '"' :: (String.toList "return\":\"" ++
      (escapeJson out ++ ['"', '}']))) = false from rfl]; simp)]
  rw [indexOfSub_cons]
  rw [if_neg (by rw [show List.isPrefixOf (String.toList "return")
    ('"' :: (String.toList "return\":\"" ++
      (escapeJson out ++ ['"', '}']))) = false from rfl]; simp)]
  rw [show String.toList "return\":\"" ++ (escapeJson out ++ ['"', '}']) =
    String.toList "return" ++ ('"' :: ':' :: '"' :: (escapeJson out ++ ['"', '}']))
    from rfl]
  rw [indexOfSub_prefixed _ _ (by decide)]
  rfl

theorem quote_not_mem_escapeJson (out : List Char) (hq : '"' ∉ out)
    (hb : '\\' ∉ out) : '"' ∉ escapeJson out := by
  induction out with
  | nil => simp [escapeJson]
  | cons c cs ih =>
    have hc1 : c ≠ '\\' := fun e => hb (e ▸ List.mem_cons_self c cs)
    have hc2 : c ≠ '"' := fun e => hq (e ▸ List.mem_cons_self c cs)
    have hq2 : '"' ∉ cs := fun m => hq (List.mem_cons_of_mem _ m)
    have hb2 : '\\' ∉ cs := fun m => hb (List.mem_cons_of_mem _ m)
    by_cases hn : c = '\n'
    · subst hn
      rw [escapeJson_nl]
      simp only [List.mem_cons]
      rintro (h | h | h)
      · exact absurd h (by decide)
      · exact absurd h (by decide)
      · exact ih hq2 hb2 h
    · by_cases hr : c = '\r'
      · subst hr
        rw [escapeJson_cr]
        simp only [List.mem_cons]
        rintro (h | h | h)
        · exact absurd h (by decide)
        · exact absurd h (by decide)
        · exact ih hq2 hb2 h
      · rw [escapeJson_other c cs hc1 hc2 hn hr]
        simp only [List.mem_cons]
        rintro (h | h)
        · exact hc2 h.symm
        · exact ih hq2 hb2 h

theorem escapeJson_length_pos (c : Char) (cs : List Char) :
    0 < (escapeJson (c :: cs)).length := by
  simp only [escapeJson]
  split_ifs <;> simp

theorem mkResponse_drop11 (out : List Char) :
    (mkResponse out).drop 11 = escapeJson out ++ ['"', '}'] := rfl

theorem indexOfCharFrom_mkResponse (out : List Char)
    (hnoq : '"' ∉ escapeJson out) :
    indexOfCharFrom (mkResponse out) '"' 11 =
      some (11 + (escapeJson out).length) := by
  unfold indexOfCharFrom
  rw [mkResponse_drop11]
  rw [show escapeJson out ++ ['"', '}'] = escapeJson out ++ '"' :: ['}']
    from rfl]
  rw [indexOfSub_singleton '"' (escapeJson out) ['}'] hnoq]

theorem extractReturn_mkResponse (out : List Char) (hne : out ≠ [])
    (hq : '"' ∉ out) (hb : '\\' ∉ out) :
    extractReturn (mkResponse out) = out := by
  have hnoq : '"' ∉ escapeJson out := quote_not_mem_escapeJson out hq hb
  have hlen : 0 < (escapeJson out).length := by
    cases out with
    | nil => exact absurd rfl hne
    | cons c cs => exact escapeJson_length_pos c cs
  simp only [extractReturn, containsSub_mkResponse out, if_true,
    indexOfSub_retKey out]
  rw [show (((2 : Nat) : Int) + 9).toNat = 11 from rfl]
  rw [indexOfCharFrom_mkResponse out hnoq]
  dsimp only
  rw [if_pos (⟨by omega, by omega⟩ : (8 : Int) < ((2 : Nat) : Int) + 9 ∧
    ((2 : Nat) : Int) + 9 < ((11 + (escapeJson out).length : Nat) : Int))]
  rw [mkResponse_drop11]
  rw [show (((11 + (escapeJson out).length : Nat) : Int)).toNat - 11 =
    (escapeJson out).length from by omega]
  rw [List.take_left]
  rw [unescapeN_escapeJson out hb hq]
  exact unescapeR_escapeR out hb

theorem quotesEscaped_cons_ne (a : Char) (t : List Char) (h1 : a ≠ '\\')
    (h2 : a ≠ '"') : quotesEscaped (a :: t) = quotesEscaped t := by
  cases t with
  | nil => simp [quotesEscaped, h2]
  | cons b cs => simp [quotesEscaped, h1, h2]

theorem quotesEscaped_escapeQuotes (cmd : List Char) (hb : '\\' ∉ cmd) :
    quotesEscaped (escapeQuotes cmd) = true := by
  induction cmd with
  | nil => rfl
  | cons c cs ih =>
    have hc1 : c ≠ '\\' := fun e => hb (e ▸ List.mem_cons_self c cs)
    have hb2 : '\\' ∉ cs := fun m => hb (List.mem_cons_of_mem _ m)
    by_cases hq : c = '"'
    · subst hq
      rw [show escapeQuotes ('"' :: cs) = '\\' :: '"' :: escapeQuotes cs
        from by simp [escapeQuotes]]
      rw [show quotesEscaped ('\\' :: '"' :: escapeQuotes cs) =
        quotesEscaped (escapeQuotes cs) from by simp [quotesEscaped]]
      exact ih hb2
    · rw [show escapeQuotes (c :: cs) = c :: escapeQuotes cs
        from by simp [escapeQuotes, hq]]
      rw [quotesEscaped_cons_ne c _ hc1 hq]
      exact ih hb2

/-- C7 counterexample: for the guest output `a"b` (an embedded quote),
the wire reply is `{"return":"a\"b"}`; the extraction locates the value
after `return":"` and cuts at the next quote character, which is the
quote of the escaped `\"`, yielding `a\` — not the original output.  The
round trip is therefore not payload-faithful for payloads containing
embedded quotes. -/
theorem C7_roundtrip_cex :
    extractReturn (mkResponse (String.toList "a\"b")) =
      String.toList "a\\" ∧
    extractReturn (mkResponse (String.toList "a\"b")) ≠
      String.toList "a\"b" :=
  ⟨by decide, by decide⟩

/-- C7 (amended): every quote character in the outgoing command is
escaped (`command.replace("\"", "\\\"")`), which keeps the transmitted
command body well-formed whenever the command itself contains no raw
backslash.  The extracted payload of the reply equals the guest output
for every nonempty output containing no quote and no backslash
characters — embedded newlines and carriage returns do round-trip,
through the `\n`/`\r` un-escaping.  For outputs with embedded quotes
the extraction truncates at the first escaped quote (see the
counterexample), and for the empty output the guards fail and the raw
reply line is returned instead. -/
theorem C7_serial_roundtrip (cmd out : List Char) (hcb : '\\' ∉ cmd)
    (hne : out ≠ []) (hq : '"' ∉ out) (hb : '\\' ∉ out) :
    quotesEscaped (escapeQuotes cmd) = true ∧
    extractReturn (mkResponse out) = out :=
  ⟨quotesEscaped_escapeQuotes cmd hcb, extractReturn_mkResponse out hne hq hb⟩

/-- Witness for the amended C7 at a concrete input: the command
`echo hi` and a guest output with an embedded newline. -/
theorem C7_serial_roundtrip_witness :
    ('\\' ∉ String.toList "echo hi" ∧ String.toList "ok\n" ≠ [] ∧
      '"' ∉ String.toList "ok\n" ∧ '\\' ∉ String.toList "ok\n") ∧
    extractReturn (mkResponse (String.toList "ok\n")) =
      String.toList "ok\n" :=
  ⟨⟨by decide, by decide, by decide, by decide⟩,
    (C7_serial_roundtrip (String.toList "echo hi") (String.toList "ok\n")
      (by decide) (by decide) (by decide) (by decide)).2⟩
